import Mathlib

/-!
Shallow embedding of `src/augmenty/span/entities.py` (the entity replacement
engine, the entity reorder/format engine and the name generator), together
with theorems settling the specification claims about it.

Python lists become Lean `List`s, Python floats drawn by `random.random()`
become rationals, stochastic choices are abstracted by oracle streams
(`Nat → ℚ` for uniform draws, `Nat → Nat` for index selection), and fallible
statements return `Except PyErr`.
-/

namespace Augmenty

/-- Python runtime errors that the embedded code can raise. -/
inductive PyErr where
  | nameError              -- reference to an unbound local variable
  | indexError             -- list index / pop out of range
  | typeError              -- unsupported operand comparison (e.g. None >= int)
  | attributeError         -- attribute access on None (e.g. None.get)
  | keyError               -- missing dict key
  | valueError             -- e.g. random.sample / np.random.choice on empty data
  | invalidConfiguration   -- construction-time validation failure (spec §7)
  deriving DecidableEq, Repr

/-! ### Python list primitives

Slice reads/writes follow CPython semantics for step-1 slices: indices are
clamped into `[0, len]`, a negative index counts from the end, and assigning
into a slice replaces the addressed segment by the payload (inserting at the
lower bound when the slice is empty). -/

/-- Resolve a Python slice bound against a list of length `n`. -/
def pyIdx (n : Nat) (i : Int) : Nat :=
  if i < 0 then (i + n).toNat else min i.toNat n

/-- `l[:b]` -/
def pySliceTo (l : List α) (b : Int) : List α :=
  l.take (pyIdx l.length b)

/-- `l[a:]` -/
def pySliceFrom (l : List α) (a : Int) : List α :=
  l.drop (pyIdx l.length a)

/-- `l[a:b]` -/
def pyGetSlice (l : List α) (a b : Int) : List α :=
  (l.take (pyIdx l.length b)).drop (pyIdx l.length a)

/-- `l[a:b] = xs` (slice assignment on a Python list). -/
def pySetSlice (l : List α) (a b : Int) (xs : List α) : List α :=
  let lo := pyIdx l.length a
  l.take lo ++ xs ++ l.drop (max lo (pyIdx l.length b))

/-- `l[i]` on a list of ints (numpy-style single indexing, negative from end). -/
def pyGetInt (l : List Int) (i : Int) : Except PyErr Int :=
  let j := if i < 0 then i + l.length else i
  if j < 0 ∨ (l.length : Int) ≤ j then .error .indexError
  else .ok (l.getD j.toNat 0)

/-- `l[0]` -/
def pyFirst (l : List α) : Except PyErr α :=
  match l with
  | [] => .error .indexError
  | x :: _ => .ok x

/-- `l.pop(i)` -/
def pyPop (l : List α) (i : Int) : Except PyErr (α × List α) :=
  let j := if i < 0 then i + l.length else i
  if j < 0 then .error .indexError
  else
    match l.get? j.toNat with
    | none => .error .indexError
    | some x => .ok (x, l.take j.toNat ++ l.drop (j.toNat + 1))

/-! ### Data model

`Example.to_dict()` exposes parallel per-token annotation arrays plus the IOB
entity tags; `example.y.ents` exposes entity spans over the original tokens. -/

/-- The `token_annotation` sub-dictionary of `example.to_dict()`. -/
structure TokenAnnotation where
  ORTH : List String
  LEMMA : List String
  TAG : List String
  POS : List String
  MORPH : List String
  DEP : List String
  SENT_START : List Int
  SPACY : List Bool
  HEAD : List Int
  deriving DecidableEq, Repr

/-- The parts of `example.to_dict()` that the engines read and patch:
`token_annotation` and `doc_annotation["entities"]` (IOB tags). -/
structure ExampleDict where
  token_annotation : TokenAnnotation
  entities : List String
  deriving DecidableEq, Repr

/-- An entity span from `example.y.ents`: token offsets `[start, stop)` into
the original tokenization (`stop` renders spaCy's `ent.end`, a Lean keyword),
its label (`ent.label_`), surface text (`ent.text`) and per-token surface
texts (`[e.text for e in ent]`). -/
structure EntSpan where
  start : Nat
  stop : Nat
  label : String
  text : String
  toks : List String
  deriving DecidableEq, Repr

/-- A replacement-pool entry (`ent_dict` value). The source consumes a pool
with `random.sample(pool, k=1)[0]`; that draw is abstracted by `sample j`
with an oracle index `j`, while `isEmptyPool` records whether the underlying
iterable is empty (there `random.sample` raises a ValueError). -/
structure EntPool where
  isEmptyPool : Bool
  sample : Nat → Except PyErr (List String)

/-- Pool backed by a finite list of candidate replacements. -/
def listPool (xs : List (List String)) : EntPool :=
  { isEmptyPool := xs.isEmpty
    sample := fun j => .ok (xs.getD (j % xs.length) []) }

/-- Pool backed by an infinite generator (e.g. `generator_from_name_dict`). -/
def genPool (g : Nat → Except PyErr (List String)) : EntPool :=
  { isEmptyPool := false, sample := g }

/-- `random.sample(pool, k=1)[0]` with oracle index `j`. -/
def randomSample1 (pool : EntPool) (j : Nat) : Except PyErr (List String) :=
  if pool.isEmptyPool then .error .valueError else pool.sample j

/-! ### Entity replacement engine (`ent_augmenter`, source lines 47-116)

The loop state mirrors the function-local variables: `replaced_ents` (the
consistency cache), `new_ent` (a local that persists across loop iterations
and is unbound — `none` — until first assigned), `offset`, the mutating
`tok_anno` arrays, the IOB tag list `ents`, and the separate numpy `head`
array. `randIx`/`sampIx` count the `random.random()` / `random.sample`
draws consumed so far, and `trace` is a proof-only ghost log recording, per
loop iteration, the `new_ent` value the iteration patched with; no other
field ever reads it. -/

structure EntState where
  replaced_ents : List (String × List String)
  new_ent : Option (List String)
  offset : Int
  tok_anno : TokenAnnotation
  ents : List String
  head : List Int
  randIx : Nat
  sampIx : Nat
  trace : List (List String)

/-- The guarded selection statement of the `ent_augmenter` loop (source lines
64-70): `if ent.label_ in ent_dict and random.random() < level:` followed by
the consistency-cache lookup/sample. `random.random()` is only drawn when the
label is present (Python short-circuit). -/
def entChoose (ent_dict : List (String × EntPool)) (level : ℚ)
    (replace_consistency : Bool) (rand : Nat → ℚ) (samp : Nat → Nat)
    (st : EntState) (ent : EntSpan) : Except PyErr EntState :=
  match ent_dict.lookup ent.label with
  | none => pure st
  | some pool =>
    -- drawing `random.random()` advances `randIx`
    if rand st.randIx < level then
      -- `if replace_consistency and ent.text in replaced_ents:`
      match if replace_consistency then st.replaced_ents.lookup ent.text
            else none with
      | some v => pure { st with randIx := st.randIx + 1, new_ent := some v }
      | none => do
        -- `new_ent = random.sample(ent_dict[ent.label_], k=1)[0]`
        let v ← randomSample1 pool (samp st.sampIx)
        -- `if replace_consistency: replaced_ents[ent.text] = new_ent`
        if replace_consistency then
          pure { st with randIx := st.randIx + 1, sampIx := st.sampIx + 1,
                         new_ent := some v,
                         replaced_ents := (ent.text, v) :: st.replaced_ents }
        else
          pure { st with randIx := st.randIx + 1, sampIx := st.sampIx + 1,
                         new_ent := some v }
    else
      pure { st with randIx := st.randIx + 1 }

/-- Reading the local `new_ent`: a NameError when it was never assigned. -/
def resolveNewEnt (o : Option (List String)) : Except PyErr (List String) :=
  match o with
  | none => .error .nameError
  | some v => pure v

/-- The patching block of the `ent_augmenter` loop (source lines 72-109). In
the source this block sits at loop level, outside the selection guard, and
therefore runs for every entity — with whatever `new_ent` currently holds. -/
def entPatch (st : EntState) (ent : EntSpan) : Except PyErr EntState := do
  -- `len_ent = len(new_ent)` — NameError when `new_ent` was never assigned
  let new_ent ← resolveNewEnt st.new_ent
  let len_ent := new_ent.length
  -- `i = slice(ent.start + offset, ent.end + offset)`
  let ia : Int := (ent.start : Int) + st.offset
  let ib : Int := (ent.stop : Int) + st.offset
  let tok := st.tok_anno
  let tok := { tok with ORTH := pySetSlice tok.ORTH ia ib new_ent }
  let tok := { tok with LEMMA := pySetSlice tok.LEMMA ia ib new_ent }
  let tok := { tok with TAG := pySetSlice tok.TAG ia ib (List.replicate len_ent "PROPN") }
  let tok := { tok with POS := pySetSlice tok.POS ia ib (List.replicate len_ent "PROPN") }
  let tok := { tok with MORPH := pySetSlice tok.MORPH ia ib (List.replicate len_ent "") }
  -- `tok_anno["DEP"][i] = [tok_anno["DEP"][i][0]] + ["flat"] * (len_ent - 1)`
  let dep0 ← pyFirst (pyGetSlice tok.DEP ia ib)
  let tok := { tok with DEP := pySetSlice tok.DEP ia ib (dep0 :: List.replicate (len_ent - 1) "flat") }
  -- `tok_anno["SENT_START"][i] = [tok_anno["SENT_START"][i][0]] + [0] * (len_ent - 1)`
  let ss0 ← pyFirst (pyGetSlice tok.SENT_START ia ib)
  let tok := { tok with SENT_START := pySetSlice tok.SENT_START ia ib (ss0 :: List.replicate (len_ent - 1) 0) }
  -- `tok_anno["SPACY"][i] = [True] * (len_ent - 1) + (tok_anno["SPACY"][-1:])`
  let spacyNew := List.replicate (len_ent - 1) true ++ pySliceFrom tok.SPACY (-1)
  let tok := { tok with SPACY := pySetSlice tok.SPACY ia ib spacyNew }
  -- `offset_ = len_ent - (ent.end - ent.start)`
  let offset_ : Int := (len_ent : Int) - ((ent.stop : Int) - (ent.start : Int))
  -- `head[head > ent.start + offset] += offset_`
  let head := st.head.map fun h => if ia < h then h + offset_ else h
  -- `head = np.concatenate([head[: ent.start + offset],
  --    [head[ent.start + offset]] + [ent.start + offset] * (len_ent - 1),
  --    head[ent.start + offset :]])`
  let h0 ← pyGetInt head ia
  let head := pySliceTo head ia
      ++ (h0 :: List.replicate (len_ent - 1) ia)
      ++ pySliceFrom head ia
  -- `offset += offset_`
  let offset := st.offset + offset_
  -- `ents[i] = ["U-PER"]` / `["B-PER"] + ["I-PER"] * (len_ent - 2) + ["L-PER"]`
  let ents :=
    if len_ent = 1 then pySetSlice st.ents ia ib ["U-PER"]
    else pySetSlice st.ents ia ib ("B-PER" :: List.replicate (len_ent - 2) "I-PER" ++ ["L-PER"])
  pure { st with new_ent := some new_ent, offset := offset, tok_anno := tok,
                 ents := ents, head := head, trace := st.trace ++ [new_ent] }

/-- One iteration of the `for ent in example.y.ents` loop of `ent_augmenter`:
the guarded selection statement followed by the unconditional patching
block. -/
def entStep (ent_dict : List (String × EntPool)) (level : ℚ)
    (replace_consistency : Bool) (rand : Nat → ℚ) (samp : Nat → Nat)
    (st : EntState) (ent : EntSpan) : Except PyErr EntState := do
  let st1 ← entChoose ent_dict level replace_consistency rand samp st ent
  entPatch st1 ent

/-- The `for ent in example.y.ents` loop of `ent_augmenter`. -/
def entLoop (ent_dict : List (String × EntPool)) (level : ℚ)
    (replace_consistency : Bool) (rand : Nat → ℚ) (samp : Nat → Nat) :
    EntState → List EntSpan → Except PyErr EntState
  | st, [] => .ok st
  | st, ent :: rest => do
    let st1 ← entStep ent_dict level replace_consistency rand samp st ent
    entLoop ent_dict level replace_consistency rand samp st1 rest

/-- The local variables of `ent_augmenter` right before its loop:
`replaced_ents = {}`, `offset = 0`, `tok_anno`/`ents` from
`example.to_dict()`, `head = np.array(tok_anno["HEAD"])`. -/
def initEntState (ex : ExampleDict) : EntState :=
  { replaced_ents := []
    new_ent := none
    offset := 0
    tok_anno := ex.token_annotation
    ents := ex.entities
    head := ex.token_annotation.HEAD
    randIx := 0
    sampIx := 0
    trace := [] }

/-- After the loop: `tok_anno["HEAD"] = head.tolist()`; the patched dict is
handed to `Example.from_dict(nlp.make_doc(text), example_dict)` and yielded. -/
def finishEntState (st : EntState) : ExampleDict :=
  { token_annotation := { st.tok_anno with HEAD := st.head }
    entities := st.ents }

/-- `ent_augmenter` (source lines 47-116): runs the loop over
`example.y.ents` (here `y_ents`) and yields exactly one patched example. -/
def ent_augmenter (ent_dict : List (String × EntPool)) (level : ℚ)
    (replace_consistency : Bool) (ex : ExampleDict)
    (y_ents : List EntSpan) (rand : Nat → ℚ) (samp : Nat → Nat) :
    Except PyErr (List ExampleDict) := do
  let st ← entLoop ent_dict level replace_consistency rand samp
      (initEntState ex) y_ents
  pure [finishEntState st]

/-! ### Factories

The bodies of `create_ent_augmenter` (source lines 24-44) and
`create_ent_format_augmenter` (lines 184-216) are absent from `src/` — only
their signatures and docstrings appear — so the construction glue below is
modelled from the spec. -/

/-- The configuration captured by the replacement-engine factory. -/
structure EntAugmenterCfg where
  ent_dict : List (String × EntPool)
  level : ℚ
  replace_consistency : Bool

/-- Modelled from the spec: the body of `create_ent_augmenter` is missing
from the source (only its docstring remains). Per §4.1/§7 of the spec the
factory captures its arguments into a closure over `ent_augmenter` and fails
fast with `InvalidConfiguration` when the pool of a present label is empty,
never mid-stream. -/
def create_ent_augmenter (ent_dict : List (String × EntPool)) (level : ℚ)
    (replace_consistency : Bool := true) : Except PyErr EntAugmenterCfg :=
  if ent_dict.any (fun kv => kv.2.isEmptyPool) then .error .invalidConfiguration
  else .ok { ent_dict := ent_dict, level := level,
             replace_consistency := replace_consistency }

/-- Invoking the callable returned by `create_ent_augmenter` on one example. -/
def runEntAugmenter (cfg : EntAugmenterCfg) (ex : ExampleDict)
    (y_ents : List EntSpan) (rand : Nat → ℚ) (samp : Nat → Nat) :
    Except PyErr (List ExampleDict) :=
  ent_augmenter cfg.ent_dict cfg.level cfg.replace_consistency ex y_ents rand samp

/-! ### Name generator (`generator_from_name_dict`, source lines 163-181)

`np.random.choice(n, size=1, replace=True, p=w)` is abstracted by an oracle
index (`r % n`); `np.random.choice` raises a ValueError on an empty range and
on a weight vector whose length does not match the range. -/

/-- Index selection of `np.random.choice(n, size=1, replace=True, p=w)[0]`
with oracle `r`; the weight-directed distribution itself is abstracted. -/
def npChoiceIdx (n : Nat) (w : Option (List ℚ)) (r : Nat) : Except PyErr Nat :=
  if n = 0 then .error .valueError
  else
    match w with
    | none => .ok (r % n)
    | some p => if p.length = n then .ok (r % n) else .error .valueError

/-- One `yield` of the `while True` loop of `generator_from_name_dict`:
`i = np.random.choice(lp, size=1, replace=True, p=patterns_p)[0]` followed by
`[np.random.choice(names[p], size=1, replace=True, p=names_p.get(p))[0]
for p in patterns[i]]`. Argument evaluation order matches Python: `names[p]`
(KeyError when absent), then `names_p.get(p)` — an AttributeError when
`names_p` is `None`. The oracle `r` supplies the choice indices (`r 0` for
the pattern, `r (m+1)` for slot `m`). -/
def name_dict_draw (names : List (String × List String))
    (patterns : List (List String))
    (names_p : Option (List (String × List ℚ)))
    (patterns_p : Option (List ℚ)) (r : Nat → Nat) :
    Except PyErr (List String) := do
  let lp := patterns.length
  let i ← npChoiceIdx lp patterns_p (r 0)
  let pat := patterns.getD i []
  pat.enum.mapM fun pm => do
    let pool ←
      match names.lookup pm.2 with
      | none => .error PyErr.keyError
      | some xs => pure xs
    let w ←
      match names_p with
      | none => .error PyErr.attributeError
      | some d => pure (d.lookup pm.2)
    let j ← npChoiceIdx pool.length w (r (pm.1 + 1))
    pure (pool.getD j "")

/-- `generator_from_name_dict` as the stream of its successive yields: draw
`k` of the infinite generator, with `r k` the oracle slice for that draw. -/
def generator_from_name_dict (names : List (String × List String))
    (patterns : List (List String))
    (names_p : Option (List (String × List ℚ)) := none)
    (patterns_p : Option (List ℚ) := none) (r : Nat → Nat → Nat) :
    Nat → Except PyErr (List String) :=
  fun k => name_dict_draw names patterns names_p patterns_p (r k)

/-- `create_per_replace_augmenter` (source lines 119-160): builds the name
generator and delegates to `create_ent_augmenter` with the pool
`{"PER": names_gen}`. -/
def create_per_replace_augmenter (names : List (String × List String))
    (patterns : List (List String)) (level : ℚ)
    (names_p : Option (List (String × List ℚ)) := none)
    (patterns_p : Option (List ℚ) := none)
    (replace_consistency : Bool := true) (r : Nat → Nat → Nat) :
    Except PyErr EntAugmenterCfg :=
  create_ent_augmenter
    [("PER", genPool (generator_from_name_dict names patterns names_p patterns_p r))]
    level replace_consistency

/-! ### Entity reorder/format engine (`ent_format_augmenter`, lines 219-258) -/

/-- The reorder walk (source lines 239-244):
```
new_ent = []
ent_ = [e.text for e in ent]
for i in reordering:
    if i >= len(ent):
        continue
    new_ent += ent_ if i is None else [ent_.pop(i)]
```
`spanLen` is `len(ent)`. The comparison `i >= len(ent)` is evaluated before
`i is None` is ever consulted, and in Python 3 comparing `None` with an `int`
raises a TypeError, so a `None` entry errors out and the append branch for it
is unreachable. -/
def reorderWalk (spanLen : Nat) :
    List String → List String → List (Option Int) → Except PyErr (List String)
  | new_ent, _, [] => .ok new_ent
  | new_ent, ent_, i :: rest =>
    match i with
    | none => .error .typeError
    | some k =>
      if (spanLen : Int) ≤ k then reorderWalk spanLen new_ent ent_ rest
      else do
        let xe ← pyPop ent_ k
        reorderWalk spanLen (new_ent ++ [xe.1]) xe.2 rest

/-- The formatting pass (source lines 247-250):
`new_ent_ = [e if f is None else f(e) for e, f in zip(new_ent, formatter)]`
followed by padding with the remaining reordered tokens when the formatter
list is shorter. -/
def formatTokens (new_ent : List String)
    (formatter : List (Option (String → String))) : List String :=
  let applied := (new_ent.zip formatter).map fun ef =>
    match ef with
    | (e, none) => e
    | (e, some f) => f e
  if applied.length < new_ent.length then applied ++ new_ent.drop applied.length
  else applied

/-- State of the `ent_format_augmenter` loop: the mutating `tok_anno` and the
count of `random.random()` draws consumed so far. -/
structure FmtState where
  tok_anno : TokenAnnotation
  randIx : Nat

/-- One iteration of the `for ent in example.y.ents` loop of
`ent_format_augmenter`. The guard
`(ent_types is None or ent.label_ in ent_types) and random.random() < level`
draws from `random` only when the type filter passes (Python short-circuit).
On a selected entity the walk reorders, `new_ent_` is computed by
`formatTokens` and then — as in the source — `ORTH`/`LEMMA` are patched with
`new_ent`, not `new_ent_`. -/
def fmtStep (reordering : List (Option Int))
    (formatter : List (Option (String → String))) (level : ℚ)
    (ent_types : Option (List String)) (rand : Nat → ℚ)
    (st : FmtState) (ent : EntSpan) : Except PyErr FmtState :=
  if (match ent_types with
      | none => true
      | some ts => ts.contains ent.label) then
    let r := rand st.randIx
    let st := { st with randIx := st.randIx + 1 }
    if r < level then do
      let new_ent ← reorderWalk (ent.stop - ent.start) [] ent.toks reordering
      let new_ent_ := formatTokens new_ent formatter
      let tok := st.tok_anno
      let tok := { tok with ORTH := pySetSlice tok.ORTH ent.start ent.stop new_ent }
      let tok := { tok with LEMMA := pySetSlice tok.LEMMA ent.start ent.stop new_ent }
      pure { st with tok_anno := tok }
    else pure st
  else pure st

/-- The `for ent in example.y.ents` loop of `ent_format_augmenter`. -/
def fmtLoop (reordering : List (Option Int))
    (formatter : List (Option (String → String))) (level : ℚ)
    (ent_types : Option (List String)) (rand : Nat → ℚ) :
    FmtState → List EntSpan → Except PyErr FmtState
  | st, [] => .ok st
  | st, ent :: rest => do
    let st1 ← fmtStep reordering formatter level ent_types rand st ent
    fmtLoop reordering formatter level ent_types rand st1 rest

/-- `ent_format_augmenter` (source lines 219-258): walks `example.y.ents`
patching `ORTH`/`LEMMA` in place and yields exactly one patched example
(IOB tags are read into a local `ents` but never written). -/
def ent_format_augmenter (reordering : List (Option Int))
    (formatter : List (Option (String → String))) (level : ℚ)
    (ent_types : Option (List String)) (ex : ExampleDict)
    (y_ents : List EntSpan) (rand : Nat → ℚ) :
    Except PyErr (List ExampleDict) := do
  let st ← fmtLoop reordering formatter level ent_types rand
      { tok_anno := ex.token_annotation, randIx := 0 } y_ents
  pure [{ token_annotation := st.tok_anno, entities := ex.entities }]

/-- The configuration captured by the reorder/format factory. -/
structure EntFormatAugmenterCfg where
  reordering : List (Option Int)
  formatter : List (Option (String → String))
  level : ℚ
  ent_types : Option (List String)

/-- Modelled from the spec: the body of `create_ent_format_augmenter` is
missing from the source (only its docstring remains); per §4.2/§6 the factory
just captures its arguments into a closure over `ent_format_augmenter`. -/
def create_ent_format_augmenter (reordering : List (Option Int))
    (formatter : List (Option (String → String))) (level : ℚ)
    (ent_types : Option (List String) := none) : EntFormatAugmenterCfg :=
  { reordering := reordering, formatter := formatter, level := level,
    ent_types := ent_types }

/-- Invoking the callable returned by `create_ent_format_augmenter`. -/
def runEntFormatAugmenter (cfg : EntFormatAugmenterCfg) (ex : ExampleDict)
    (y_ents : List EntSpan) (rand : Nat → ℚ) :
    Except PyErr (List ExampleDict) :=
  ent_format_augmenter cfg.reordering cfg.formatter cfg.level cfg.ent_types
    ex y_ents rand

/-- All nine per-token annotation arrays and the IOB tag list have one common
length. -/
def lengthsAligned (d : ExampleDict) : Bool :=
  let t := d.token_annotation
  [t.LEMMA.length, t.TAG.length, t.POS.length, t.MORPH.length, t.DEP.length,
   t.SENT_START.length, t.SPACY.length, t.HEAD.length, d.entities.length].all
    fun n => n == t.ORTH.length

/-! ### Shared helper lemmas -/

theorem ent_augmenter_run (ent_dict : List (String × EntPool)) (level : ℚ)
    (rc : Bool) (ex : ExampleDict) (y_ents : List EntSpan)
    (rand : Nat → ℚ) (samp : Nat → Nat) :
    ent_augmenter ent_dict level rc ex y_ents rand samp =
      (entLoop ent_dict level rc rand samp (initEntState ex) y_ents).map
        fun st => [finishEntState st] := by
  unfold ent_augmenter
  cases entLoop ent_dict level rc rand samp (initEntState ex) y_ents <;> rfl

theorem ent_format_augmenter_run (reordering : List (Option Int))
    (formatter : List (Option (String → String))) (level : ℚ)
    (ent_types : Option (List String)) (ex : ExampleDict)
    (y_ents : List EntSpan) (rand : Nat → ℚ) :
    ent_format_augmenter reordering formatter level ent_types ex y_ents rand =
      (fmtLoop reordering formatter level ent_types rand
          { tok_anno := ex.token_annotation, randIx := 0 } y_ents).map
        fun st => [{ token_annotation := st.tok_anno, entities := ex.entities }] := by
  unfold ent_format_augmenter
  cases fmtLoop reordering formatter level ent_types rand
      { tok_anno := ex.token_annotation, randIx := 0 } y_ents <;> rfl

theorem except_map_ok_iff {f : α → β} {x : Except ε α} {b : β} :
    x.map f = .ok b ↔ ∃ a, x = .ok a ∧ f a = b := by
  cases x with
  | error e => simp [Except.map]
  | ok a => simp [Except.map]

theorem except_bind_error {x : Except ε α} {g : α → Except ε β} {e : ε}
    (h : x.bind g = .error e) : x = .error e ∨ ∃ a, x = .ok a ∧ g a = .error e := by
  cases x with
  | error e1 =>
    left
    simpa [Except.bind] using h
  | ok a =>
    right
    exact ⟨a, rfl, by simpa [Except.bind] using h⟩

theorem except_bind_ok {x : Except ε α} {g : α → Except ε β} {b : β}
    (h : x.bind g = .ok b) : ∃ a, x = .ok a ∧ g a = .ok b := by
  cases x with
  | error e1 => simp [Except.bind] at h
  | ok a => exact ⟨a, rfl, by simpa [Except.bind] using h⟩

/-! ### Claim C1 -/

/-- C1: each augmenter factory (`create_ent_augmenter`,
`create_per_replace_augmenter`, `create_ent_format_augmenter`) returns a
callable which, applied to a language object and one annotated example,
produces a lazily-produced sequence containing exactly one re-tokenized
example: every successful run of the replacement engine or of the
reorder/format engine yields a one-element list, and the per-replace factory
is exactly the replacement factory applied to the `{"PER": names_gen}`
pool. -/
theorem C1_exactly_one_example :
    (∀ (ent_dict : List (String × EntPool)) (level : ℚ) (rc : Bool)
        (cfg : EntAugmenterCfg) (ex : ExampleDict) (y_ents : List EntSpan)
        (rand : Nat → ℚ) (samp : Nat → Nat) (out : List ExampleDict),
        create_ent_augmenter ent_dict level rc = .ok cfg →
        runEntAugmenter cfg ex y_ents rand samp = .ok out →
        out.length = 1)
  ∧ (∀ (names : List (String × List String)) (patterns : List (List String))
        (level : ℚ) (names_p : Option (List (String × List ℚ)))
        (patterns_p : Option (List ℚ)) (rc : Bool) (r : Nat → Nat → Nat),
        create_per_replace_augmenter names patterns level names_p patterns_p rc r =
          create_ent_augmenter
            [("PER", genPool (generator_from_name_dict names patterns names_p patterns_p r))]
            level rc)
  ∧ (∀ (reordering : List (Option Int))
        (formatter : List (Option (String → String))) (level : ℚ)
        (ent_types : Option (List String)) (ex : ExampleDict)
        (y_ents : List EntSpan) (rand : Nat → ℚ) (out : List ExampleDict),
        runEntFormatAugmenter
            (create_ent_format_augmenter reordering formatter level ent_types)
            ex y_ents rand = .ok out →
        out.length = 1) := by
  refine ⟨?_, ?_, ?_⟩
  · intro ent_dict level rc cfg ex y_ents rand samp out _ hrun
    rw [runEntAugmenter, ent_augmenter_run] at hrun
    obtain ⟨st, -, hout⟩ := except_map_ok_iff.mp hrun
    rw [← hout]
    rfl
  · intro names patterns level names_p patterns_p rc r
    rfl
  · intro reordering formatter level ent_types ex y_ents rand out hrun
    rw [runEntFormatAugmenter, ent_format_augmenter_run] at hrun
    obtain ⟨st, -, hout⟩ := except_map_ok_iff.mp hrun
    rw [← hout]
    rfl

/-- Concrete single-token example used by the C1 witness. -/
def exC1 : ExampleDict :=
  { token_annotation :=
      { ORTH := ["Hi"], LEMMA := ["hi"], TAG := ["UH"], POS := ["INTJ"],
        MORPH := [""], DEP := ["ROOT"], SENT_START := [1], SPACY := [false],
        HEAD := [0] }
    entities := ["O"] }

theorem C1_exactly_one_example_witness :
    create_ent_augmenter [("PER", listPool [["John"]])] 1 true =
      .ok { ent_dict := [("PER", listPool [["John"]])], level := 1,
            replace_consistency := true }
  ∧ runEntAugmenter
      { ent_dict := [("PER", listPool [["John"]])], level := 1,
        replace_consistency := true }
      exC1 [] (fun _ => 0) (fun _ => 0) = .ok [exC1]
  ∧ ([exC1] : List ExampleDict).length = 1 :=
  ⟨rfl, rfl,
    C1_exactly_one_example.1 [("PER", listPool [["John"]])] 1 true
      { ent_dict := [("PER", listPool [["John"]])], level := 1,
        replace_consistency := true }
      exC1 [] (fun _ => 0) (fun _ => 0) [exC1] rfl rfl⟩

/-! ### Claim C2 -/

/-- Concrete input for C2: one `PER` entity, pool present, `level = 0`. -/
def exC2 : ExampleDict :=
  { token_annotation :=
      { ORTH := ["Hi", "Kenneth", "!"], LEMMA := ["hi", "kenneth", "!"],
        TAG := ["UH", "NNP", "."], POS := ["INTJ", "PROPN", "PUNCT"],
        MORPH := ["", "", ""], DEP := ["intj", "appos", "punct"],
        SENT_START := [1, 0, 0], SPACY := [true, false, false],
        HEAD := [1, 1, 1] }
    entities := ["O", "U-PER", "O"] }

def entC2 : EntSpan :=
  { start := 1, stop := 2, label := "PER", text := "Kenneth", toks := ["Kenneth"] }

/-- C2: the claim says that an entity whose Bernoulli draw fails is left
unmodified and that `level = 0.0` reproduces the input. On the code the
patching block runs for every entity regardless of the draw, so with
`level = 0` the engine dereferences the never-assigned local `new_ent` and
raises a NameError instead of yielding the unchanged example. -/
theorem C2_level_zero_raises_name_error :
    ent_augmenter [("PER", listPool [["John"]])] 0 true exC2 [entC2]
      (fun _ => 0) (fun _ => 0) = .error .nameError := by
  rfl

/-! ### Claim C3 -/

def exC3 : ExampleDict :=
  { token_annotation :=
      { ORTH := ["Hi", "Kenneth", "!"], LEMMA := ["hi", "kenneth", "!"],
        TAG := ["UH", "NNP", "."], POS := ["INTJ", "PROPN", "PUNCT"],
        MORPH := ["", "", ""], DEP := ["intj", "appos", "punct"],
        SENT_START := [1, 0, 0], SPACY := [true, false, false],
        HEAD := [1, 1, 1] }
    entities := ["O", "U-PER", "O"] }

def entC3 : EntSpan :=
  { start := 1, stop := 2, label := "PER", text := "Kenneth", toks := ["Kenneth"] }

/-- C3: the claim says every produced example has all annotation arrays of
identical length. Replacing the single-token entity by a two-token name on an
aligned input produces an example whose `HEAD` array does not match the other
arrays (the head splice keeps the old span tail), refuting the invariant. -/
theorem C3_length_invariant_broken :
    lengthsAligned exC3 = true
  ∧ (ent_augmenter [("PER", listPool [["John", "Smith"]])] 1 true exC3 [entC3]
        (fun _ => 0) (fun _ => 0)).map (fun ds => ds.map lengthsAligned)
      = .ok [false] := by
  exact ⟨rfl, rfl⟩

/-! ### Claim C4 -/

def exC4 : ExampleDict :=
  { token_annotation :=
      { ORTH := ["Hi", "Kenneth", "!"], LEMMA := ["hi", "kenneth", "!"],
        TAG := ["UH", "NNP", "."], POS := ["INTJ", "PROPN", "PUNCT"],
        MORPH := ["", "", ""], DEP := ["intj", "appos", "punct"],
        SENT_START := [1, 0, 0], SPACY := [true, false, false],
        HEAD := [1, 1, 1] }
    entities := ["O", "U-PER", "O"] }

def entC4 : EntSpan :=
  { start := 1, stop := 2, label := "PER", text := "Kenneth", toks := ["Kenneth"] }

/-- C4: the claim says the head sequence is spliced to length `len_ent` at
the span position. Replacing the one-token entity at index 1 of a three-token
document by a two-token name yields a five-entry `HEAD` for a four-token
output: the concatenation's tail starts at `ent.start + offset` instead of
`ent.end + offset`, so the old span heads are kept and the head array grows
by `len_ent` instead of `len_ent - (end - start)`. -/
theorem C4_head_splice_keeps_old_span :
    (ent_augmenter [("PER", listPool [["John", "Smith"]])] 1 true exC4 [entC4]
        (fun _ => 0) (fun _ => 0)).map
        (fun ds => ds.map fun d =>
          (d.token_annotation.HEAD, d.token_annotation.ORTH))
      = .ok [([1, 1, 1, 1, 1], ["Hi", "John", "Smith", "!"])] := by
  rfl

/-! ### Claim C5 -/

def exC5 : ExampleDict :=
  { token_annotation :=
      { ORTH := ["Kenneth", "Enevoldsen", "!"],
        LEMMA := ["kenneth", "enevoldsen", "!"],
        TAG := ["NNP", "NNP", "."], POS := ["PROPN", "PROPN", "PUNCT"],
        MORPH := ["", "", ""], DEP := ["ROOT", "flat", "punct"],
        SENT_START := [1, 0, 0], SPACY := [true, false, false],
        HEAD := [0, 0, 0] }
    entities := ["B-PER", "L-PER", "O"] }

def entC5 : EntSpan :=
  { start := 0, stop := 2, label := "PER", text := "Kenneth Enevoldsen",
    toks := ["Kenneth", "Enevoldsen"] }

/-- Abbreviating formatter from the source docstring:
`lambda token: token.text[0] + "."`. -/
def abbreviateFmt : Option (String → String) :=
  some fun s => s.take 1 ++ "."

/-- C5: the claim says the token sequence written into `ORTH`/`LEMMA` is the
formatted sequence. On the code the formatted list `new_ent_` is computed and
then discarded: with the abbreviating formatter at position 0, the written
`ORTH` is the unformatted reordering `["Enevoldsen", "Kenneth"]`, not the
formatted `["E.", "Kenneth"]` that `formatTokens` yields. -/
theorem C5_format_output_discarded :
    (ent_format_augmenter [some 1, some 0] [abbreviateFmt, none] 1 none exC5
        [entC5] (fun _ => 0)).map
        (fun ds => ds.map fun d => d.token_annotation.ORTH)
      = .ok [["Enevoldsen", "Kenneth", "!"]]
  ∧ formatTokens ["Enevoldsen", "Kenneth"] [abbreviateFmt, none]
      = ["E.", "Kenneth"]
  ∧ ("Enevoldsen" : String) ≠ "E." := by
  refine ⟨rfl, rfl, by decide⟩

/-! ### Claim C6 -/

def exC6 : ExampleDict :=
  { token_annotation :=
      { ORTH := ["Kenneth", "Enevoldsen", "!"],
        LEMMA := ["kenneth", "enevoldsen", "!"],
        TAG := ["NNP", "NNP", "."], POS := ["PROPN", "PROPN", "PUNCT"],
        MORPH := ["", "", ""], DEP := ["ROOT", "flat", "punct"],
        SENT_START := [1, 0, 0], SPACY := [true, false, false],
        HEAD := [0, 0, 0] }
    entities := ["B-PER", "L-PER", "O"] }

def entC6 : EntSpan :=
  { start := 0, stop := 2, label := "PER", text := "Kenneth Enevoldsen",
    toks := ["Kenneth", "Enevoldsen"] }

/-- C6: the claim says a `None` entry of the reorder specification appends
all remaining tokens. On the code the comparison `i >= len(ent)` is evaluated
before the `None` check, and comparing `None` with an `int` raises a
TypeError, so the docstring's own reordering `[-1, None]` crashes instead of
appending the remainder. -/
theorem C6_none_reorder_entry_type_error :
    ent_format_augmenter [some (-1), none] [] 1 none exC6 [entC6]
      (fun _ => 0) = .error .typeError := by
  rfl

/-! ### Claim C7 -/

def exC7 : ExampleDict :=
  { token_annotation :=
      { ORTH := ["Kenneth", "Enevoldsen", "!"],
        LEMMA := ["kenneth", "enevoldsen", "!"],
        TAG := ["NNP", "NNP", "."], POS := ["PROPN", "PROPN", "PUNCT"],
        MORPH := ["", "", ""], DEP := ["ROOT", "flat", "punct"],
        SENT_START := [1, 0, 0], SPACY := [true, false, false],
        HEAD := [0, 0, 0] }
    entities := ["B-PER", "L-PER", "O"] }

def entC7 : EntSpan :=
  { start := 0, stop := 2, label := "PER", text := "Kenneth Enevoldsen",
    toks := ["Kenneth", "Enevoldsen"] }

theorem pyIdx_natCast (n k : Nat) : pyIdx n (k : Int) = min k n := by
  unfold pyIdx
  rw [if_neg (by omega)]
  simp [Int.toNat_natCast]

theorem pySetSlice_length {l : List α} {a b : Nat} {xs : List α}
    (hab : a ≤ b) (hb : b ≤ l.length) (hxs : xs.length = b - a) :
    (pySetSlice l (a : Int) (b : Int) xs).length = l.length := by
  have ha : a ≤ l.length := le_trans hab hb
  unfold pySetSlice
  simp only [pyIdx_natCast, min_eq_left ha, min_eq_left hb, max_eq_right hab,
    List.length_append, List.length_take, List.length_drop, min_eq_left ha]
  omega

theorem pySetSlice_get?_lt {l : List α} {a b : Nat} {xs : List α} {j : Nat}
    (hab : a ≤ b) (hb : b ≤ l.length) (hj : j < a) :
    (pySetSlice l (a : Int) (b : Int) xs).get? j = l.get? j := by
  have ha : a ≤ l.length := le_trans hab hb
  unfold pySetSlice
  simp only [pyIdx_natCast, min_eq_left ha, min_eq_left hb, max_eq_right hab]
  rw [List.get?_append (by simp only [List.length_append, List.length_take]; omega),
    List.get?_append (by simp only [List.length_take]; omega)]
  exact List.get?_take hj

theorem pySetSlice_get?_ge {l : List α} {a b : Nat} {xs : List α} {j : Nat}
    (hab : a ≤ b) (hb : b ≤ l.length) (hxs : xs.length = b - a) (hj : b ≤ j) :
    (pySetSlice l (a : Int) (b : Int) xs).get? j = l.get? j := by
  have ha : a ≤ l.length := le_trans hab hb
  unfold pySetSlice
  simp only [pyIdx_natCast, min_eq_left ha, min_eq_left hb, max_eq_right hab]
  have hlen : (l.take a ++ xs).length = b := by
    simp [List.length_take, min_eq_left ha]
    omega
  rw [List.get?_append_right (by omega), hlen, List.get?_drop]
  congr 1
  omega

/-- C7 counterexample: the claim says the reorder/format engine never changes
the total token count. With the reordering `[0]` on a two-token entity the
walk yields a single token, the `ORTH` slice assignment shrinks the array,
and the produced token count drops from 3 to 2. -/
theorem C7_token_count_counterexample :
    (ent_format_augmenter [some 0] [] 1 none exC7 [entC7] (fun _ => 0)).map
        (fun ds => ds.map fun d => d.token_annotation.ORTH.length)
      = .ok [2]
  ∧ exC7.token_annotation.ORTH.length = 3 := by
  exact ⟨rfl, rfl⟩

/-- The annotation fields the reorder/format engine never writes. -/
def fmtFrame (t : TokenAnnotation) :
    List String × List String × List String × List String × List Int ×
      List Bool × List Int :=
  (t.TAG, t.POS, t.MORPH, t.DEP, t.SENT_START, t.SPACY, t.HEAD)

theorem fmtStep_cases {reordering : List (Option Int)}
    {formatter : List (Option (String → String))} {level : ℚ}
    {ent_types : Option (List String)} {rand : Nat → ℚ}
    {st st1 : FmtState} {ent : EntSpan}
    (h : fmtStep reordering formatter level ent_types rand st ent = .ok st1) :
    (∃ w, reorderWalk (ent.stop - ent.start) [] ent.toks reordering = .ok w ∧
        st1.tok_anno = { st.tok_anno with
          ORTH := pySetSlice st.tok_anno.ORTH ent.start ent.stop w
          LEMMA := pySetSlice st.tok_anno.LEMMA ent.start ent.stop w })
    ∨ st1.tok_anno = st.tok_anno := by
  unfold fmtStep at h
  split at h
  · dsimp only at h
    split at h
    · obtain ⟨w, hw, hp⟩ := except_bind_ok h
      simp only [pure, Except.pure, Except.ok.injEq] at hp
      subst hp
      exact .inl ⟨w, hw, rfl⟩
    · simp only [pure, Except.pure, Except.ok.injEq] at h
      subst h
      exact .inr rfl
  · simp only [pure, Except.pure, Except.ok.injEq] at h
    subst h
    exact .inr rfl

theorem fmtStep_frame {reordering : List (Option Int)}
    {formatter : List (Option (String → String))} {level : ℚ}
    {ent_types : Option (List String)} {rand : Nat → ℚ}
    {st st1 : FmtState} {ent : EntSpan}
    (h : fmtStep reordering formatter level ent_types rand st ent = .ok st1) :
    fmtFrame st1.tok_anno = fmtFrame st.tok_anno := by
  rcases fmtStep_cases h with ⟨w, -, heq⟩ | heq <;> simp only [heq, fmtFrame]

theorem fmtLoop_frame {reordering : List (Option Int)}
    {formatter : List (Option (String → String))} {level : ℚ}
    {ent_types : Option (List String)} {rand : Nat → ℚ}
    (ents : List EntSpan) : ∀ st stf : FmtState,
    fmtLoop reordering formatter level ent_types rand st ents = .ok stf →
    fmtFrame stf.tok_anno = fmtFrame st.tok_anno := by
  induction ents with
  | nil =>
    intro st stf h
    cases h
    rfl
  | cons ent rest ih =>
    intro st stf h
    obtain ⟨st1, hstep, hloop⟩ := except_bind_ok h
    exact (ih st1 stf hloop).trans (fmtStep_frame hstep)

theorem fmtLoop_orth_preserve {reordering : List (Option Int)}
    {formatter : List (Option (String → String))} {level : ℚ}
    {ent_types : Option (List String)} {rand : Nat → ℚ}
    (ents : List EntSpan) : ∀ st stf : FmtState,
    fmtLoop reordering formatter level ent_types rand st ents = .ok stf →
    (∀ ent ∈ ents, ent.start ≤ ent.stop ∧
        ent.stop ≤ st.tok_anno.ORTH.length ∧
        ent.stop ≤ st.tok_anno.LEMMA.length ∧
        ∀ w, reorderWalk (ent.stop - ent.start) [] ent.toks reordering = .ok w →
          w.length = ent.stop - ent.start) →
    (stf.tok_anno.ORTH.length = st.tok_anno.ORTH.length ∧
        stf.tok_anno.LEMMA.length = st.tok_anno.LEMMA.length)
    ∧ ∀ j : Nat, (∀ ent ∈ ents, j < ent.start ∨ ent.stop ≤ j) →
        stf.tok_anno.ORTH.get? j = st.tok_anno.ORTH.get? j ∧
        stf.tok_anno.LEMMA.get? j = st.tok_anno.LEMMA.get? j := by
  induction ents with
  | nil =>
    intro st stf h _
    cases h
    exact ⟨⟨rfl, rfl⟩, fun _ _ => ⟨rfl, rfl⟩⟩
  | cons ent rest ih =>
    intro st stf h hwf
    obtain ⟨st1, hstep, hloop⟩ := except_bind_ok h
    obtain ⟨hab, hbO, hbL, hwalk⟩ := hwf ent (List.mem_cons_self ent rest)
    have step1 :
        (st1.tok_anno.ORTH.length = st.tok_anno.ORTH.length ∧
          st1.tok_anno.LEMMA.length = st.tok_anno.LEMMA.length)
        ∧ ∀ j : Nat, (j < ent.start ∨ ent.stop ≤ j) →
            st1.tok_anno.ORTH.get? j = st.tok_anno.ORTH.get? j ∧
            st1.tok_anno.LEMMA.get? j = st.tok_anno.LEMMA.get? j := by
      rcases fmtStep_cases hstep with ⟨w, hw, heq⟩ | heq
      · have hwlen := hwalk w hw
        have hxs : w.length = ent.stop - ent.start := hwlen
        constructor
        · rw [heq]
          exact ⟨pySetSlice_length hab hbO hxs, pySetSlice_length hab hbL hxs⟩
        · intro j hj
          rw [heq]
          rcases hj with hj | hj
          · exact ⟨pySetSlice_get?_lt hab hbO hj, pySetSlice_get?_lt hab hbL hj⟩
          · exact ⟨pySetSlice_get?_ge hab hbO hxs hj, pySetSlice_get?_ge hab hbL hxs hj⟩
      · rw [heq]
        exact ⟨⟨rfl, rfl⟩, fun _ _ => ⟨rfl, rfl⟩⟩
    have hwf1 : ∀ e ∈ rest, e.start ≤ e.stop ∧
        e.stop ≤ st1.tok_anno.ORTH.length ∧
        e.stop ≤ st1.tok_anno.LEMMA.length ∧
        ∀ w, reorderWalk (e.stop - e.start) [] e.toks reordering = .ok w →
          w.length = e.stop - e.start := by
      intro e he
      obtain ⟨h1, h2, h3, h4⟩ := hwf e (List.mem_cons_of_mem ent he)
      exact ⟨h1, step1.1.1 ▸ h2, step1.1.2 ▸ h3, h4⟩
    obtain ⟨⟨ihO, ihL⟩, ihget⟩ := ih st1 stf hloop hwf1
    refine ⟨⟨ihO.trans step1.1.1, ihL.trans step1.1.2⟩, ?_⟩
    intro j hj
    have hrest : ∀ e ∈ rest, j < e.start ∨ e.stop ≤ j := fun e he =>
      hj e (List.mem_cons_of_mem ent he)
    have hhead := hj ent (List.mem_cons_self ent rest)
    obtain ⟨g1, g2⟩ := ihget j hrest
    obtain ⟨g3, g4⟩ := step1.2 j hhead
    exact ⟨g1.trans g3, g2.trans g4⟩

/-- C7 (amended): for every example produced by the reorder/format engine,
`TAG`, `MORPH`, `DEP`, `HEAD`, `SENT_START`, `SPACY` (and `POS`) and the IOB
entity tags are left untouched. The total token count is unchanged — and
`ORTH`/`LEMMA` change only within entity spans — provided that for every
entity the reorder walk yields exactly the entity's span length (e.g. when
the reordering is a permutation of the span positions); the
counterexample shows the unconditional count claim fails when the walk drops
tokens. -/
theorem C7_reorder_frame_amended :
    ∀ (reordering : List (Option Int))
      (formatter : List (Option (String → String))) (level : ℚ)
      (ent_types : Option (List String)) (ex : ExampleDict)
      (y_ents : List EntSpan) (rand : Nat → ℚ) (ds : List ExampleDict),
      ent_format_augmenter reordering formatter level ent_types ex y_ents rand
        = .ok ds →
      (ds.map (fun d => fmtFrame d.token_annotation)
          = [fmtFrame ex.token_annotation]
        ∧ ds.map (fun d => d.entities) = [ex.entities])
      ∧ ((∀ ent ∈ y_ents, ent.start ≤ ent.stop ∧
              ent.stop ≤ ex.token_annotation.ORTH.length ∧
              ent.stop ≤ ex.token_annotation.LEMMA.length ∧
              ∀ w, reorderWalk (ent.stop - ent.start) [] ent.toks reordering
                  = .ok w → w.length = ent.stop - ent.start) →
          ds.map (fun d => d.token_annotation.ORTH.length)
              = [ex.token_annotation.ORTH.length]
          ∧ ∀ j : Nat, (∀ ent ∈ y_ents, j < ent.start ∨ ent.stop ≤ j) →
              ds.map (fun d => d.token_annotation.ORTH.get? j)
                  = [ex.token_annotation.ORTH.get? j]
              ∧ ds.map (fun d => d.token_annotation.LEMMA.get? j)
                  = [ex.token_annotation.LEMMA.get? j]) := by
  intro reordering formatter level ent_types ex y_ents rand ds hrun
  rw [ent_format_augmenter_run] at hrun
  obtain ⟨stf, hloop, hout⟩ := except_map_ok_iff.mp hrun
  subst hout
  constructor
  · exact ⟨by simp [fmtLoop_frame y_ents _ stf hloop], by simp⟩
  · intro hwf
    obtain ⟨⟨hO, hL⟩, hget⟩ := fmtLoop_orth_preserve y_ents _ stf hloop hwf
    refine ⟨by simp [hO], ?_⟩
    intro j hj
    obtain ⟨g1, g2⟩ := hget j hj
    exact ⟨by simpa using g1, by simpa using g2⟩

/-- Concrete output of the C7 witness run. -/
def dC7w : ExampleDict :=
  { token_annotation :=
      { ORTH := ["Enevoldsen", "Kenneth", "!"],
        LEMMA := ["Enevoldsen", "Kenneth", "!"],
        TAG := ["NNP", "NNP", "."], POS := ["PROPN", "PROPN", "PUNCT"],
        MORPH := ["", "", ""], DEP := ["ROOT", "flat", "punct"],
        SENT_START := [1, 0, 0], SPACY := [true, false, false],
        HEAD := [0, 0, 0] }
    entities := ["B-PER", "L-PER", "O"] }

theorem C7_reorder_frame_amended_witness :
    ent_format_augmenter [some 1, some 0] [] 1 none exC7 [entC7] (fun _ => 0)
      = .ok [dC7w]
  ∧ [dC7w].map (fun d => fmtFrame d.token_annotation)
      = [fmtFrame exC7.token_annotation]
  ∧ [dC7w].map (fun d => d.token_annotation.ORTH.length)
      = [exC7.token_annotation.ORTH.length] := by
  have hrun : ent_format_augmenter [some 1, some 0] [] 1 none exC7 [entC7]
      (fun _ => 0) = .ok [dC7w] := rfl
  have hwf : ∀ ent ∈ [entC7], ent.start ≤ ent.stop ∧
      ent.stop ≤ exC7.token_annotation.ORTH.length ∧
      ent.stop ≤ exC7.token_annotation.LEMMA.length ∧
      ∀ w, reorderWalk (ent.stop - ent.start) [] ent.toks [some 1, some 0]
          = .ok w → w.length = ent.stop - ent.start := by
    intro ent hent
    rw [List.mem_singleton] at hent
    subst hent
    refine ⟨by decide, by decide, by decide, ?_⟩
    intro w hw
    have hcomp : reorderWalk (entC7.stop - entC7.start) [] entC7.toks
        [some 1, some 0] = Except.ok ["Enevoldsen", "Kenneth"] := rfl
    rw [hcomp] at hw
    cases hw
    rfl
  have h := C7_reorder_frame_amended [some 1, some 0] [] 1 none exC7 [entC7]
    (fun _ => 0) [dC7w] hrun
  exact ⟨hrun, h.1.1, (h.2 hwf).1⟩

/-! ### Claim C8 -/

theorem exceptBind_ok_reduce (a : α) (g : α → Except ε β) :
    (Except.ok a : Except ε α) >>= g = g a := rfl

theorem exceptBind_error_reduce (e : ε) (g : α → Except ε β) :
    (Except.error e : Except ε α) >>= g = Except.error e := rfl

theorem exceptPure_bind (a : α) (g : α → Except ε β) :
    (pure a : Except ε α) >>= g = g a := rfl

/-- A successful patch step appends exactly the used `new_ent` to the ghost
trace and leaves the consistency cache untouched. -/
theorem entPatch_state {st st1 : EntState} {ent : EntSpan}
    (h : entPatch st ent = .ok st1) :
    ∃ v, st.new_ent = some v ∧ st1.replaced_ents = st.replaced_ents ∧
      st1.new_ent = some v ∧ st1.trace = st.trace ++ [v] := by
  unfold entPatch at h
  cases hne : st.new_ent with
  | none =>
    rw [hne] at h
    simp only [resolveNewEnt, exceptBind_error_reduce] at h
    cases h
  | some v =>
    rw [hne] at h
    simp only [resolveNewEnt, exceptPure_bind] at h
    obtain ⟨dep0, -, h⟩ := except_bind_ok h
    obtain ⟨ss0, -, h⟩ := except_bind_ok h
    obtain ⟨h0, -, h⟩ := except_bind_ok h
    simp only [pure, Except.pure, Except.ok.injEq] at h
    subst h
    exact ⟨v, rfl, rfl, rfl, rfl⟩

/-- A successful guarded-selection step never touches the ghost trace. -/
theorem entChoose_trace {ed : List (String × EntPool)} {level : ℚ} {rc : Bool}
    {rand : Nat → ℚ} {samp : Nat → Nat} {st st1 : EntState} {ent : EntSpan}
    (h : entChoose ed level rc rand samp st ent = .ok st1) :
    st1.trace = st.trace := by
  unfold entChoose at h
  split at h
  · simp only [pure, Except.pure, Except.ok.injEq] at h
    subst h
    rfl
  · split at h
    · split at h
      · simp only [pure, Except.pure, Except.ok.injEq] at h
        subst h
        rfl
      · obtain ⟨v, -, h⟩ := except_bind_ok h
        split at h <;>
          (simp only [pure, Except.pure, Except.ok.injEq] at h; subst h; rfl)
    · simp only [pure, Except.pure, Except.ok.injEq] at h
      subst h
      rfl

/-- A successful loop step appends exactly one entry to the ghost trace. -/
theorem entStep_trace {ed : List (String × EntPool)} {level : ℚ} {rc : Bool}
    {rand : Nat → ℚ} {samp : Nat → Nat} {st st1 : EntState} {ent : EntSpan}
    (h : entStep ed level rc rand samp st ent = .ok st1) :
    ∃ v, st1.trace = st.trace ++ [v] := by
  obtain ⟨stc, hc, hp⟩ := except_bind_ok h
  obtain ⟨v, -, -, -, htr⟩ := entPatch_state hp
  exact ⟨v, by rw [htr, entChoose_trace hc]⟩

/-- A successful run of the loop only ever appends to the ghost trace. -/
theorem entLoop_trace_extend {ed : List (String × EntPool)} {level : ℚ}
    {rc : Bool} {rand : Nat → ℚ} {samp : Nat → Nat}
    (ents : List EntSpan) : ∀ st stf : EntState,
    entLoop ed level rc rand samp st ents = .ok stf →
    ∃ tail, stf.trace = st.trace ++ tail := by
  induction ents with
  | nil =>
    intro st stf h
    cases h
    exact ⟨[], by simp⟩
  | cons ent rest ih =>
    intro st stf h
    obtain ⟨st1, hstep, hloop⟩ := except_bind_ok h
    obtain ⟨v, h1⟩ := entStep_trace hstep
    obtain ⟨tail, h2⟩ := ih st1 stf hloop
    exact ⟨v :: tail, by rw [h2, h1]; simp⟩

/-- Under `replace_consistency = true`, a selected entity (label present,
draw successful) ends its step with `new_ent` bound to a value `v` that the
cache maps its surface text to; existing cache bindings survive. -/
theorem entChoose_sel {ed : List (String × EntPool)} {level : ℚ}
    {rand : Nat → ℚ} {samp : Nat → Nat} {st st1 : EntState} {ent : EntSpan}
    {pool : EntPool}
    (hl : ed.lookup ent.label = some pool)
    (hr : rand st.randIx < level)
    (h : entChoose ed level true rand samp st ent = .ok st1) :
    ∃ v, st1.new_ent = some v ∧
      st1.replaced_ents.lookup ent.text = some v ∧
      ∀ t u, st.replaced_ents.lookup t = some u →
        st1.replaced_ents.lookup t = some u := by
  unfold entChoose at h
  rw [hl] at h
  cases hcache : st.replaced_ents.lookup ent.text with
  | some w =>
    rw [hcache] at h
    dsimp only at h
    rw [if_pos hr] at h
    simp only [if_true, pure, Except.pure, Except.ok.injEq] at h
    subst h
    exact ⟨w, rfl, hcache, fun t u hu => hu⟩
  | none =>
    rw [hcache] at h
    dsimp only at h
    rw [if_pos hr] at h
    simp only [if_true] at h
    obtain ⟨v, -, h⟩ := except_bind_ok h
    simp only [if_true, pure, Except.pure, Except.ok.injEq] at h
    subst h
    refine ⟨v, rfl, by simp [List.lookup], ?_⟩
    intro t u hu
    simp only [List.lookup]
    cases hbeq : t == ent.text with
    | true =>
      rw [eq_of_beq hbeq] at hu
      rw [hu] at hcache
      cases hcache
    | false => simpa [List.lookup, hbeq] using hu

/-- One selected loop step, end to end: the trace gains exactly the used
replacement `v`, and the cache maps the entity's surface text to `v`. -/
theorem entStep_sel {ed : List (String × EntPool)} {level : ℚ}
    {rand : Nat → ℚ} {samp : Nat → Nat} {st st1 : EntState} {ent : EntSpan}
    {pool : EntPool}
    (hl : ed.lookup ent.label = some pool)
    (hr : rand st.randIx < level)
    (h : entStep ed level true rand samp st ent = .ok st1) :
    ∃ v, st1.trace = st.trace ++ [v] ∧
      st1.replaced_ents.lookup ent.text = some v ∧
      ∀ t u, st.replaced_ents.lookup t = some u →
        st1.replaced_ents.lookup t = some u := by
  obtain ⟨stc, hc, hp⟩ := except_bind_ok h
  obtain ⟨v, hv, hlook, hmono⟩ := entChoose_sel hl hr hc
  obtain ⟨u, hu, hre, -, htr⟩ := entPatch_state hp
  rw [hv] at hu
  cases hu
  refine ⟨v, ?_, ?_, ?_⟩
  · rw [htr, entChoose_trace hc]
  · rw [hre]
    exact hlook
  · intro t u1 hu1
    rw [hre]
    exact hmono t u1 hu1

/-- Loop invariant for the consistency claim: with `level = 1`, draws below 1
and every label present, each processed entity logs a trace entry that the
final cache maps its surface text to; earlier cache bindings survive. -/
theorem entLoop_consistency {ed : List (String × EntPool)} {rand : Nat → ℚ}
    {samp : Nat → Nat} (hrand : ∀ k, rand k < 1)
    (ents : List EntSpan) : ∀ st stf : EntState,
    (∀ ent ∈ ents, (ed.lookup ent.label).isSome) →
    entLoop ed 1 true rand samp st ents = .ok stf →
    (∀ t u, st.replaced_ents.lookup t = some u →
        stf.replaced_ents.lookup t = some u)
    ∧ (∀ i ent, ents.get? i = some ent →
        ∃ v, stf.trace.get? (st.trace.length + i) = some v ∧
          stf.replaced_ents.lookup ent.text = some v) := by
  induction ents with
  | nil =>
    intro st stf _ h
    cases h
    exact ⟨fun t u hu => hu, fun i ent hi => by simp at hi⟩
  | cons ent rest ih =>
    intro st stf hlbl h
    obtain ⟨st1, hstep, hloop⟩ := except_bind_ok h
    obtain ⟨pool, hl⟩ :=
      Option.isSome_iff_exists.mp (hlbl ent (List.mem_cons_self ent rest))
    obtain ⟨v, htrace, hlook, hmono⟩ := entStep_sel hl (hrand st.randIx) hstep
    obtain ⟨ihmono, ihtr⟩ :=
      ih st1 stf (fun e he => hlbl e (List.mem_cons_of_mem ent he)) hloop
    refine ⟨fun t u hu => ihmono t u (hmono t u hu), ?_⟩
    intro i e hi
    cases i with
    | zero =>
      have he : ent = e := by simpa using hi
      subst he
      obtain ⟨tail, hext⟩ := entLoop_trace_extend rest st1 stf hloop
      refine ⟨v, ?_, ihmono ent.text v hlook⟩
      rw [hext, htrace, Nat.add_zero, List.append_assoc]
      rw [List.get?_append_right (Nat.le_refl _)]
      simp
    | succ i =>
      have hi1 : rest.get? i = some e := by simpa using hi
      obtain ⟨u, hu1, hu2⟩ := ihtr i e hi1
      refine ⟨u, ?_, hu2⟩
      have hlen : st1.trace.length = st.trace.length + 1 := by
        rw [htrace]
        simp
      rw [show st.trace.length + (i + 1) = st1.trace.length + i by omega]
      exact hu1

/-- C8: in the entity replacement engine with `replace_consistency = true`
and `level = 1.0`, any two entities of one example with identical original
surface text receive the identical replacement token list (the ghost trace
logs, per entity, the replacement the patching step used), and the
consistency cache is created afresh — empty — for each example. -/
theorem C8_replace_consistency :
    (∀ ex : ExampleDict, (initEntState ex).replaced_ents = [])
  ∧ (∀ (ed : List (String × EntPool)) (level : ℚ) (rc : Bool)
        (ex : ExampleDict) (y_ents : List EntSpan) (rand : Nat → ℚ)
        (samp : Nat → Nat),
        ent_augmenter ed level rc ex y_ents rand samp =
          (entLoop ed level rc rand samp (initEntState ex) y_ents).map
            fun st => [finishEntState st])
  ∧ (∀ (ed : List (String × EntPool)) (ex : ExampleDict)
        (y_ents : List EntSpan) (rand : Nat → ℚ) (samp : Nat → Nat)
        (stf : EntState) (i j : Nat) (e1 e2 : EntSpan),
        (∀ k, rand k < 1) →
        (∀ ent ∈ y_ents, (ed.lookup ent.label).isSome) →
        entLoop ed 1 true rand samp (initEntState ex) y_ents = .ok stf →
        y_ents.get? i = some e1 → y_ents.get? j = some e2 →
        e1.text = e2.text →
        stf.trace.get? i = stf.trace.get? j ∧ (stf.trace.get? i).isSome) := by
  refine ⟨fun ex => rfl, ent_augmenter_run, ?_⟩
  intro ed ex y_ents rand samp stf i j e1 e2 hrand hlbl hloop hi hj htext
  obtain ⟨-, htr⟩ := entLoop_consistency hrand y_ents (initEntState ex) stf hlbl hloop
  obtain ⟨v1, hv1, hl1⟩ := htr i e1 hi
  obtain ⟨v2, hv2, hl2⟩ := htr j e2 hj
  rw [htext] at hl1
  rw [hl1] at hl2
  cases hl2
  have hz : (initEntState ex).trace.length = 0 := rfl
  rw [hz, Nat.zero_add] at hv1 hv2
  rw [hv1, hv2]
  exact ⟨rfl, rfl⟩

def exC8 : ExampleDict :=
  { token_annotation :=
      { ORTH := ["Kenneth", "met", "Kenneth", "."],
        LEMMA := ["kenneth", "meet", "kenneth", "."],
        TAG := ["NNP", "VBD", "NNP", "."],
        POS := ["PROPN", "VERB", "PROPN", "PUNCT"],
        MORPH := ["", "", "", ""], DEP := ["nsubj", "ROOT", "obj", "punct"],
        SENT_START := [1, 0, 0, 0], SPACY := [true, true, false, false],
        HEAD := [1, 1, 1, 1] }
    entities := ["U-PER", "O", "U-PER", "O"] }

def entC8a : EntSpan :=
  { start := 0, stop := 1, label := "PER", text := "Kenneth", toks := ["Kenneth"] }

def entC8b : EntSpan :=
  { start := 2, stop := 3, label := "PER", text := "Kenneth", toks := ["Kenneth"] }

theorem C8_replace_consistency_witness :
    ((entLoop [("PER", listPool [["Anna"], ["Bo"]])] 1 true (fun _ => 0)
        (fun _ => 0) (initEntState exC8) [entC8a, entC8b]).toOption.isSome
      = true)
  ∧ ((entLoop [("PER", listPool [["Anna"], ["Bo"]])] 1 true (fun _ => 0)
        (fun _ => 0) (initEntState exC8) [entC8a, entC8b]).map
          fun st => st.trace.get? 0)
      = ((entLoop [("PER", listPool [["Anna"], ["Bo"]])] 1 true (fun _ => 0)
        (fun _ => 0) (initEntState exC8) [entC8a, entC8b]).map
          fun st => st.trace.get? 1) := by
  refine ⟨rfl, ?_⟩
  cases hloop : entLoop [("PER", listPool [["Anna"], ["Bo"]])] 1 true
      (fun _ => 0) (fun _ => 0) (initEntState exC8) [entC8a, entC8b] with
  | error e => rfl
  | ok stf =>
    have h := (C8_replace_consistency.2.2 [("PER", listPool [["Anna"], ["Bo"]])]
      exC8 [entC8a, entC8b] (fun _ => 0) (fun _ => 0) stf 0 1 entC8a entC8b
      (fun k => by norm_num)
      (by intro ent hent; fin_cases hent <;> rfl)
      hloop rfl rfl rfl).1
    simp only [List.get?_eq_getElem?] at h
    simp [Except.map, h]

/-! ### Claim C9 -/

/-- C9: the claim says that when per-slot weights (`names_p`) are unset the
name generator samples each slot uniformly. On the code the very first draw
with the documented default `names_p = None` evaluates `names_p.get(p)` and
raises an AttributeError instead of sampling uniformly. -/
theorem C9_names_p_default_attribute_error :
    generator_from_name_dict [("firstname", ["Kenneth"])] [["firstname"]]
      none none (fun _ _ => 0) 0 = .error .attributeError := by
  rfl

/-! ### Claim C10 -/

theorem exceptPure_ne_error (a : α) (e : ε) :
    (pure a : Except ε α) ≠ .error e := fun h => Except.noConfusion h

theorem pyFirst_error {l : List α} {e : PyErr} (h : pyFirst l = .error e) :
    e = .indexError := by
  cases l with
  | nil =>
    cases h
    rfl
  | cons x xs => cases h

theorem pyGetInt_error {l : List Int} {i : Int} {e : PyErr}
    (h : pyGetInt l i = .error e) : e = .indexError := by
  unfold pyGetInt at h
  dsimp only at h
  split at h <;> split at h <;>
    first
    | (cases h; rfl)
    | cases h

/-- The patching block can only raise NameError or IndexError. -/
theorem entPatch_error {st : EntState} {ent : EntSpan} {e : PyErr}
    (h : entPatch st ent = .error e) : e = .nameError ∨ e = .indexError := by
  unfold entPatch at h
  cases hne : st.new_ent with
  | none =>
    rw [hne] at h
    simp only [resolveNewEnt, exceptBind_error_reduce] at h
    cases h
    exact .inl rfl
  | some v =>
    rw [hne] at h
    simp only [resolveNewEnt, exceptPure_bind] at h
    rcases except_bind_error h with h1 | ⟨dep0, -, h⟩
    · exact .inr (pyFirst_error h1)
    rcases except_bind_error h with h1 | ⟨ss0, -, h⟩
    · exact .inr (pyFirst_error h1)
    rcases except_bind_error h with h1 | ⟨h0, -, h⟩
    · exact .inr (pyGetInt_error h1)
    · exact absurd h (exceptPure_ne_error _ _)

/-- With every present pool non-empty (and no pool whose sampler raises the
empty-pool ValueError), the selection statement never raises a ValueError. -/
theorem entChoose_no_value_error {ed : List (String × EntPool)} {level : ℚ}
    {rc : Bool} {rand : Nat → ℚ} {samp : Nat → Nat} {st : EntState}
    {ent : EntSpan}
    (hpool : ∀ p, ed.lookup ent.label = some p →
        p.isEmptyPool = false ∧ ∀ jj, p.sample jj ≠ .error .valueError) :
    entChoose ed level rc rand samp st ent ≠ .error .valueError := by
  intro h
  unfold entChoose at h
  cases hl : ed.lookup ent.label with
  | none =>
    rw [hl] at h
    exact exceptPure_ne_error _ _ h
  | some pool =>
    rw [hl] at h
    dsimp only at h
    split at h
    · split at h
      · exact exceptPure_ne_error _ _ h
      · rcases except_bind_error h with h1 | ⟨v, -, h2⟩
        · obtain ⟨hemp, hsam⟩ := hpool pool hl
          unfold randomSample1 at h1
          rw [hemp] at h1
          rw [if_neg (by simp)] at h1
          exact hsam _ h1
        · split at h2 <;> exact exceptPure_ne_error _ _ h2
    · exact exceptPure_ne_error _ _ h

theorem entStep_no_value_error {ed : List (String × EntPool)} {level : ℚ}
    {rc : Bool} {rand : Nat → ℚ} {samp : Nat → Nat} {st : EntState}
    {ent : EntSpan}
    (hpool : ∀ p, ed.lookup ent.label = some p →
        p.isEmptyPool = false ∧ ∀ jj, p.sample jj ≠ .error .valueError) :
    entStep ed level rc rand samp st ent ≠ .error .valueError := by
  intro h
  unfold entStep at h
  rcases except_bind_error h with h1 | ⟨stc, -, h2⟩
  · exact entChoose_no_value_error hpool h1
  · rcases entPatch_error h2 with h3 | h3 <;> cases h3

theorem entLoop_no_value_error {ed : List (String × EntPool)} {level : ℚ}
    {rc : Bool} {rand : Nat → ℚ} {samp : Nat → Nat}
    (hpool : ∀ lbl p, ed.lookup lbl = some p →
        p.isEmptyPool = false ∧ ∀ jj, p.sample jj ≠ .error .valueError)
    (ents : List EntSpan) : ∀ st : EntState,
    entLoop ed level rc rand samp st ents ≠ .error .valueError := by
  induction ents with
  | nil =>
    intro st h
    cases h
  | cons ent rest ih =>
    intro st h
    rcases except_bind_error h with h1 | ⟨st1, -, h2⟩
    · exact entStep_no_value_error (fun p hp => hpool ent.label p hp) h1
    · exact ih st1 h2

/-- A successful lookup key-value pair is a member of the association list. -/
theorem lookup_mem {l : List (String × EntPool)} {a : String} {b : EntPool}
    (h : l.lookup a = some b) : ∃ k, (k, b) ∈ l := by
  induction l with
  | nil => simp [List.lookup] at h
  | cons kv rest ih =>
    obtain ⟨k, pb⟩ := kv
    simp only [List.lookup] at h
    cases hbeq : a == k with
    | true =>
      rw [hbeq] at h
      cases h
      exact ⟨k, List.mem_cons_self _ _⟩
    | false =>
      rw [hbeq] at h
      obtain ⟨k1, hk1⟩ := ih h
      exact ⟨k1, List.mem_cons_of_mem _ hk1⟩

/-- C10: an `ent_dict` containing a label with an empty candidate pool is
rejected with `InvalidConfiguration` at construction time; and once
construction of the replacement augmenter from finite pools has succeeded, no
run of the returned callable can raise the empty-pool ValueError mid-stream. -/
theorem C10_empty_pool_invalid_configuration :
    (∀ (ent_dict : List (String × EntPool)) (level : ℚ) (rc : Bool)
        (lbl : String) (pool : EntPool),
        (lbl, pool) ∈ ent_dict → pool.isEmptyPool = true →
        create_ent_augmenter ent_dict level rc = .error .invalidConfiguration)
  ∧ (∀ (pools : List (String × List (List String))) (level : ℚ) (rc : Bool)
        (cfg : EntAugmenterCfg),
        create_ent_augmenter (pools.map fun kv => (kv.1, listPool kv.2))
          level rc = .ok cfg →
        ∀ (ex : ExampleDict) (y_ents : List EntSpan) (rand : Nat → ℚ)
          (samp : Nat → Nat),
          runEntAugmenter cfg ex y_ents rand samp ≠ .error .valueError) := by
  constructor
  · intro ent_dict level rc lbl pool hmem hemp
    unfold create_ent_augmenter
    rw [if_pos (List.any_eq_true.mpr ⟨(lbl, pool), hmem, hemp⟩)]
  · intro pools level rc cfg hcfg ex y_ents rand samp h
    unfold create_ent_augmenter at hcfg
    set mapped := pools.map fun kv => (kv.1, listPool kv.2) with hmapped
    cases hany : mapped.any fun kv => kv.2.isEmptyPool with
    | true =>
      rw [if_pos hany] at hcfg
      cases hcfg
    | false =>
      rw [if_neg (by rw [hany]; simp)] at hcfg
      cases hcfg
      rw [runEntAugmenter] at h
      dsimp only at h
      rw [ent_augmenter_run] at h
      have hpool : ∀ lbl p, mapped.lookup lbl = some p →
          p.isEmptyPool = false ∧ ∀ jj, p.sample jj ≠ .error .valueError := by
        intro lbl p hlook
        obtain ⟨k, hkmem⟩ := lookup_mem hlook
        constructor
        · have := List.any_eq_false.mp hany (k, p) hkmem
          simpa using this
        · rw [hmapped] at hkmem
          obtain ⟨kv, -, hkv⟩ := List.mem_map.mp hkmem
          have hp : p = listPool kv.2 := congrArg Prod.snd hkv.symm
          rw [hp]
          intro jj hj
          exact Except.noConfusion hj
      cases hloop : entLoop mapped level rc rand samp (initEntState ex) y_ents with
      | error e =>
        rw [hloop] at h
        have he : e = .valueError := by
          simpa [Except.map] using h
        rw [he] at hloop
        exact entLoop_no_value_error hpool y_ents (initEntState ex) hloop
      | ok stf =>
        rw [hloop] at h
        simp [Except.map] at h

def exC10 : ExampleDict :=
  { token_annotation :=
      { ORTH := ["Hi", "Kenneth", "!"], LEMMA := ["hi", "kenneth", "!"],
        TAG := ["UH", "NNP", "."], POS := ["INTJ", "PROPN", "PUNCT"],
        MORPH := ["", "", ""], DEP := ["intj", "appos", "punct"],
        SENT_START := [1, 0, 0], SPACY := [true, false, false],
        HEAD := [1, 1, 1] }
    entities := ["O", "U-PER", "O"] }

def entC10 : EntSpan :=
  { start := 1, stop := 2, label := "PER", text := "Kenneth", toks := ["Kenneth"] }

theorem C10_empty_pool_invalid_configuration_witness :
    create_ent_augmenter [("PER", listPool [])] 1 true
      = .error .invalidConfiguration
  ∧ runEntAugmenter
      { ent_dict := [("PER", listPool [["John"]])], level := 1,
        replace_consistency := true }
      exC10 [entC10] (fun _ => 0) (fun _ => 0) ≠ .error .valueError := by
  constructor
  · exact C10_empty_pool_invalid_configuration.1 [("PER", listPool [])] 1 true
      "PER" (listPool []) (List.mem_singleton.mpr rfl) rfl
  · exact C10_empty_pool_invalid_configuration.2 [("PER", [["John"]])] 1 true
      { ent_dict := [("PER", listPool [["John"]])], level := 1,
        replace_consistency := true }
      rfl exC10 [entC10] (fun _ => 0) (fun _ => 0)

end Augmenty
